import Mathlib

/-!
Shallow embedding of the vectorization-width resolver in
`crates/burn-cubecl-fusion/src/shared/trace/vectorization/base.rs`.

Machine integers (`u8`, `usize`) are modelled as `Nat`; no arithmetic in the
source can overflow (widths are only compared and used as divisors, extents
and strides are only compared and reduced modulo a width).  Rust panics
(out-of-bounds indexing, `% 0`, `.unwrap()` on `None`, `len() - 1` on an
empty slice) are modelled by returning `none`: every function that can panic
returns `Option _`.  `BTreeMap<TensorId, Vect>` is modelled as a function
`Nat → Option Vect` (insert = pointwise update, get = application); the
override table's `BTreeMap<TensorId, Vec<u8>>` is modelled as an association
list, since the claims only exercise lookup and key-translation.  The
runtime-supplied candidate list `R::line_size_elem(ref_elem)` is an external
input and is passed as an explicit list parameter `dls`.
-/

/-- `Vect` from base.rs: either a broadcast axis or an aligned packing width. -/
inductive Vect where
  | Broadcasted : Vect
  | Aligned : Nat → Vect
deriving DecidableEq

/-- `Vect::line_size`. -/
def Vect.line_size : Vect → Nat
  | .Broadcasted => 1
  | .Aligned v => v

/-- `Vect::is_broadcast`. -/
def Vect.is_broadcast : Vect → Bool
  | .Broadcasted => true
  | .Aligned _ => false

/-- `Vect::limit_to_one`. -/
def Vect.limit_to_one : Vect → Vect
  | .Broadcasted => .Broadcasted
  | .Aligned _ => .Aligned 1

/-- `TensorIr` (the fields the resolver reads: identity and shape). -/
structure TensorIr where
  id : Nat
  shape : List Nat
deriving DecidableEq

/-- `CubeFusionHandle` (the field the resolver reads: strides). -/
structure CubeFusionHandle where
  strides : List Nat
deriving DecidableEq

/-- `axis.unwrap_or_else(|| len - 1)`: `len - 1` on an empty slice is a
panic-in-effect in the source (underflow and/or the subsequent index panics),
modelled as `none`. -/
def defaultAxis (len : Nat) (axis : Option Nat) : Option Nat :=
  match axis with
  | some a => some a
  | none => if len = 0 then none else some (len - 1)

/-- The candidate scan of `vectorization_input`: first width dividing the
axis extent wins, `Aligned(1)` if none matches, and a width of `0` is the
Rust panic `shape_axis % 0`. -/
def scanInput (e : Nat) : List Nat → Option Vect
  | [] => some (.Aligned 1)
  | s :: rest =>
    if s = 0 then none
    else if e % s = 0 then some (.Aligned s)
    else scanInput e rest

/-- `vectorization_input` from base.rs.  `dls` is the runtime default
candidate list `R::line_size_elem(ref_elem)`. -/
def vectorization_input (handle : CubeFusionHandle) (desc : TensorIr)
    (axis : Option Nat) (dls : List Nat) (overrides : Option (List Nat)) :
    Option Vect :=
  match defaultAxis handle.strides.length axis with
  | none => none
  | some ax =>
    match desc.shape[ax]? with
    | none => none
    | some shape_axis =>
      if shape_axis = 1 then some .Broadcasted
      else
        match handle.strides[ax]? with
        | none => none
        | some st =>
          if st ≠ 1 then some (.Aligned 1)
          else
            match overrides with
            | some vals => scanInput shape_axis vals
            | none => scanInput shape_axis dls

/-- The candidate scan of `vectorization_output`: the shape is indexed inside
the closure, exactly as in the source. -/
def scanOutput (shape : List Nat) (ax mx : Nat) : List Nat → Option Vect
  | [] => some (.Aligned 1)
  | s :: rest =>
    match shape[ax]? with
    | none => none
    | some e =>
      if s = 0 then none
      else if e % s = 0 ∧ s ≤ mx then some (.Aligned s)
      else scanOutput shape ax mx rest

/-- `vectorization_output` from base.rs. -/
def vectorization_output (desc : TensorIr) (axis : Option Nat)
    (dls : List Nat) (mx : Nat) (overrides : Option (List Nat)) :
    Option Vect :=
  match defaultAxis desc.shape.length axis with
  | none => none
  | some ax =>
    match overrides with
    | some vals => scanOutput desc.shape ax mx vals
    | none => scanOutput desc.shape ax mx dls

/-- The candidate scan of `vectorization_reshape`. -/
def scanReshape (multi : Bool) (rAx oAx mx : Nat) : List Nat → Option Vect
  | [] => some (.Aligned 1)
  | s :: rest =>
    if s = 0 then none
    else if multi then
      if rAx % s = 0 ∧ oAx % s = 0 ∧ s ≤ mx then some (.Aligned s)
      else scanReshape multi rAx oAx mx rest
    else
      if rAx % s = 0 ∧ s ≤ mx then some (.Aligned s)
      else scanReshape multi rAx oAx mx rest

/-- `vectorization_reshape` from base.rs. -/
def vectorization_reshape (reshaped original : TensorIr) (multi_reads : Bool)
    (axis : Option Nat) (dls : List Nat) (mx : Nat)
    (overrides : Option (List Nat)) : Option Vect :=
  match defaultAxis reshaped.shape.length axis with
  | none => none
  | some ax =>
    match reshaped.shape[ax]? with
    | none => none
    | some reshape_shape_axis =>
      if multi_reads = false ∧ reshape_shape_axis = 1 then some .Broadcasted
      else if ax ≠ reshaped.shape.length - 1 then some (.Aligned 1)
      else
        match original.shape[original.shape.length - 1]? with
        | none => none
        | some original_shape_axis =>
          if original_shape_axis ≠ reshape_shape_axis then some (.Aligned 1)
          else
            match overrides with
            | some vals => scanReshape multi_reads reshape_shape_axis original_shape_axis mx vals
            | none => scanReshape multi_reads reshape_shape_axis original_shape_axis mx dls

/-- The candidate scan of `vectorization_swapped`. -/
def scanSwapped (multi : Bool) (sAx oAx mx : Nat) : List Nat → Option Vect
  | [] => some (.Aligned 1)
  | s :: rest =>
    if s = 0 then none
    else if multi then
      if sAx % s = 0 ∧ s ≤ mx then some (.Aligned s)
      else scanSwapped multi sAx oAx mx rest
    else
      if sAx % s = 0 ∧ oAx % s = 0 ∧ s ≤ mx then some (.Aligned s)
      else scanSwapped multi sAx oAx mx rest

/-- The contiguity check of `vectorization_swapped`: `some false` means a
required stride differs from 1 (the source returns `Aligned(1)`), `none`
means an index panic.  When multi-read and the stride at the axis is not 1
the source returns before indexing `dim_index`, which is kept here. -/
def swappedContiguity (strides : List Nat) (multi : Bool) (ax dim_index : Nat) :
    Option Bool :=
  if multi then
    match strides[ax]? with
    | none => none
    | some sa =>
      if sa ≠ 1 then some false
      else
        match strides[dim_index]? with
        | none => none
        | some sd => some (sd = 1)
  else
    match strides[dim_index]? with
    | none => none
    | some sd => some (sd = 1)

/-- `vectorization_swapped` from base.rs. -/
def vectorization_swapped (handle : CubeFusionHandle)
    (swapped original : TensorIr) (multi_reads : Bool) (dims : Nat × Nat)
    (mx : Nat) (axis : Option Nat) (dls : List Nat)
    (overrides : Option (List Nat)) : Option Vect :=
  match defaultAxis swapped.shape.length axis with
  | none => none
  | some ax =>
    match swapped.shape[ax]? with
    | none => none
    | some swapped_axis =>
      match original.shape[ax]? with
      | none => none
      | some shape_axis =>
        let dim_index :=
          if dims.1 = ax then dims.2
          else if dims.2 = ax then dims.1
          else ax
        match swappedContiguity handle.strides multi_reads ax dim_index with
        | none => none
        | some false => some (.Aligned 1)
        | some true =>
          if multi_reads = false ∧ swapped_axis = 1 then some .Broadcasted
          else
            match overrides with
            | some vals => scanSwapped multi_reads swapped_axis shape_axis mx vals
            | none => scanSwapped multi_reads swapped_axis shape_axis mx dls

/-- `BTreeMap::insert` on the vectorization mapping. -/
def insertV (m : Nat → Option Vect) (k : Nat) (v : Vect) : Nat → Option Vect :=
  fun k2 => if k2 = k then some v else m k2

/-- `multi_reads_vectorization_update` from base.rs. -/
def multi_reads_vectorization_update (m : Nat → Option Vect) (original : Nat)
    (vect : Vect) : Nat → Option Vect :=
  match m original with
  | some .Broadcasted => m
  | some (.Aligned ori) =>
    match vect with
    | .Broadcasted => insertV m original (.Aligned 1)
    | .Aligned nw => insertV m original (.Aligned (if nw ≠ ori then 1 else nw))
  | none => insertV m original vect

/-- `LineSizeOverrides` from base.rs: the `BTreeMap` is an association list. -/
structure LineSizeOverrides where
  state : Option (List (Nat × List Nat))
  dflt : Option (List Nat)
deriving DecidableEq

/-- `LineSizeOverrides::tensor`. -/
def LineSizeOverrides.tensor (o : LineSizeOverrides) (tensor_id : Nat) :
    Option (List Nat) :=
  match o.state with
  | none => o.dflt
  | some m =>
    match m.lookup tensor_id with
    | some val => some val
    | none => o.dflt

/-- The key-translation loop inside `LineSizeOverrides::mapping`: each key is
looked up in the context's tensor translation, and `.unwrap()` on a missing
key is the panic, modelled as `none`. -/
def mappingState (context : Nat → Option Nat) :
    List (Nat × List Nat) → Option (List (Nat × List Nat))
  | [] => some []
  | (k, v) :: rest =>
    match context k with
    | none => none
    | some g =>
      match mappingState context rest with
      | none => none
      | some r => some ((g, v) :: r)

/-- `LineSizeOverrides::mapping`, with the execution context abstracted to
its tensor-identity translation `context.tensors`. -/
def LineSizeOverrides.mapping (o : LineSizeOverrides)
    (context : Nat → Option Nat) : Option LineSizeOverrides :=
  match o.state with
  | none => some ⟨none, o.dflt⟩
  | some st =>
    match mappingState context st with
    | none => none
    | some st2 => some ⟨some st2, o.dflt⟩

/-- The first loop of `vectorization_default`: bound inputs zipped with their
handles; an input whose identity is the original side of a swap relation is
routed through `vectorization_swapped` and merged, all others are resolved
as plain inputs and inserted. -/
def processInputs (dls : List Nat) (ov : LineSizeOverrides) (mx : Nat)
    (axis : Option Nat) (swapped : List (TensorIr × TensorIr × Bool × Nat × Nat)) :
    List (CubeFusionHandle × TensorIr) → (Nat → Option Vect) →
    Option (Nat → Option Vect)
  | [], m => some m
  | (handle, tensor) :: rest, m =>
    match swapped.find? (fun q => q.2.1.id == tensor.id) with
    | some (s, o, mr, d1, d2) =>
      match vectorization_swapped handle s o mr (d1, d2) mx axis dls (ov.tensor tensor.id) with
      | none => none
      | some val =>
        processInputs dls ov mx axis swapped rest
          (multi_reads_vectorization_update m o.id val)
    | none =>
      match vectorization_input handle tensor axis dls (ov.tensor tensor.id) with
      | none => none
      | some val =>
        processInputs dls ov mx axis swapped rest (insertV m tensor.id val)

/-- The second loop of `vectorization_default`: reshape-aliased tensors,
merged into the original identity. -/
def processReshaped (dls : List Nat) (ov : LineSizeOverrides) (mx : Nat)
    (axis : Option Nat) :
    List (TensorIr × TensorIr × Bool) → (Nat → Option Vect) →
    Option (Nat → Option Vect)
  | [], m => some m
  | (reshaped, original, multi_reads) :: rest, m =>
    match vectorization_reshape reshaped original multi_reads axis dls mx (ov.tensor original.id) with
    | none => none
    | some val =>
      processReshaped dls ov mx axis rest
        (multi_reads_vectorization_update m original.id val)

/-- The third loop of `vectorization_default`: outputs, inserted under their
own identity. -/
def processOutputs (dls : List Nat) (ov : LineSizeOverrides) (mx : Nat)
    (axis : Option Nat) :
    List TensorIr → (Nat → Option Vect) → Option (Nat → Option Vect)
  | [], m => some m
  | tensor :: rest, m =>
    match vectorization_output tensor axis dls mx (ov.tensor tensor.id) with
    | none => none
    | some val => processOutputs dls ov mx axis rest (insertV m tensor.id val)

/-- `vectorization_default` from base.rs: inputs, then reshaped, then
outputs. -/
def vectorization_default (m : Nat → Option Vect)
    (handles_inputs : List CubeFusionHandle) (inputs : List TensorIr)
    (outputs : List TensorIr) (reshaped : List (TensorIr × TensorIr × Bool))
    (swapped : List (TensorIr × TensorIr × Bool × Nat × Nat))
    (dls : List Nat) (overrides : LineSizeOverrides) (mx : Nat)
    (axis : Option Nat) : Option (Nat → Option Vect) :=
  match processInputs dls overrides mx axis swapped (handles_inputs.zip inputs) m with
  | none => none
  | some m1 =>
    match processReshaped dls overrides mx axis reshaped m1 with
    | none => none
    | some m2 => processOutputs dls overrides mx axis outputs m2

/-- The candidate list actually scanned: the override list if present, else
the runtime default list. -/
def candsOf (overrides : Option (List Nat)) (dls : List Nat) : List Nat :=
  overrides.getD dls

/-- Modelled from the spec (claim C1): the merge rule of the Conflict Merger
stated as a binary operation on the existing decision (if any) and the new
proposal. -/
def mergeClaim : Option Vect → Vect → Vect
  | some .Broadcasted, _ => .Broadcasted
  | some (.Aligned _), .Broadcasted => .Aligned 1
  | some (.Aligned ori), .Aligned nw => if nw = ori then .Aligned nw else .Aligned 1
  | none, v => v

/-- Modelled from the spec (claim C5 as amended): the reshape resolver with
the broadcast rule for a size-1 axis restored ahead of the last-axis check. -/
def vectorization_reshape_spec (reshaped original : TensorIr)
    (multi_reads : Bool) (ax : Nat) (cands : List Nat) (mx : Nat) : Vect :=
  let rAx := reshaped.shape.getD ax 0
  if multi_reads = false ∧ rAx = 1 then .Broadcasted
  else if ax ≠ reshaped.shape.length - 1 then .Aligned 1
  else
    let oAx := original.shape.getD (original.shape.length - 1) 0
    if oAx ≠ rAx then .Aligned 1
    else
      match cands.find? (fun s =>
        if multi_reads then
          decide (rAx % s = 0) && decide (oAx % s = 0) && decide (s ≤ mx)
        else
          decide (rAx % s = 0) && decide (s ≤ mx)) with
      | some w => .Aligned w
      | none => .Aligned 1

/-- Modelled from the spec (claim C6 as amended): the dimension-swapped
resolver with the broadcast rule for a size-1 swapped axis restored between
the contiguity check and the candidate scan. -/
def vectorization_swapped_spec (strides : List Nat)
    (swapped original : TensorIr) (multi_reads : Bool) (dims : Nat × Nat)
    (mx ax : Nat) (cands : List Nat) : Vect :=
  let swapped_axis := swapped.shape.getD ax 0
  let shape_axis := original.shape.getD ax 0
  let dim_index :=
    if dims.1 = ax then dims.2
    else if dims.2 = ax then dims.1
    else ax
  if (multi_reads = true ∧ (strides.getD ax 0 ≠ 1 ∨ strides.getD dim_index 0 ≠ 1))
      ∨ (multi_reads = false ∧ strides.getD dim_index 0 ≠ 1) then
    .Aligned 1
  else if multi_reads = false ∧ swapped_axis = 1 then .Broadcasted
  else
    match cands.find? (fun s =>
      if multi_reads then
        decide (swapped_axis % s = 0) && decide (s ≤ mx)
      else
        decide (swapped_axis % s = 0) && decide (shape_axis % s = 0) && decide (s ≤ mx)) with
    | some w => .Aligned w
    | none => .Aligned 1

/-- Modelled from the spec (claim C6 as written): identical to
`vectorization_swapped_spec` except that the broadcast rule is absent, so a
decision past the contiguity check always comes from the candidate scan. -/
def vectorization_swapped_claimed (strides : List Nat)
    (swapped original : TensorIr) (multi_reads : Bool) (dims : Nat × Nat)
    (mx ax : Nat) (cands : List Nat) : Vect :=
  let swapped_axis := swapped.shape.getD ax 0
  let shape_axis := original.shape.getD ax 0
  let dim_index :=
    if dims.1 = ax then dims.2
    else if dims.2 = ax then dims.1
    else ax
  if (multi_reads = true ∧ (strides.getD ax 0 ≠ 1 ∨ strides.getD dim_index 0 ≠ 1))
      ∨ (multi_reads = false ∧ strides.getD dim_index 0 ≠ 1) then
    .Aligned 1
  else
    match cands.find? (fun s =>
      if multi_reads then
        decide (swapped_axis % s = 0) && decide (s ≤ mx)
      else
        decide (swapped_axis % s = 0) && decide (shape_axis % s = 0) && decide (s ≤ mx)) with
    | some w => .Aligned w
    | none => .Aligned 1

/-- Modelled from the spec (claim C7 as written): the orchestrator's input
loop with the swap lookup matching the transposed side (`s.id`) of each swap
relation, as the claim states, instead of the original side. -/
def processInputsClaimed (dls : List Nat) (ov : LineSizeOverrides) (mx : Nat)
    (axis : Option Nat) (swapped : List (TensorIr × TensorIr × Bool × Nat × Nat)) :
    List (CubeFusionHandle × TensorIr) → (Nat → Option Vect) →
    Option (Nat → Option Vect)
  | [], m => some m
  | (handle, tensor) :: rest, m =>
    match swapped.find? (fun q => q.1.id == tensor.id) with
    | some (s, o, mr, d1, d2) =>
      match vectorization_swapped handle s o mr (d1, d2) mx axis dls (ov.tensor tensor.id) with
      | none => none
      | some val =>
        processInputsClaimed dls ov mx axis swapped rest
          (multi_reads_vectorization_update m o.id val)
    | none =>
      match vectorization_input handle tensor axis dls (ov.tensor tensor.id) with
      | none => none
      | some val =>
        processInputsClaimed dls ov mx axis swapped rest (insertV m tensor.id val)

/-- Modelled from the spec (claim C7 as written): `vectorization_default`
with the input loop replaced by `processInputsClaimed`. -/
def vectorization_default_claimed (m : Nat → Option Vect)
    (handles_inputs : List CubeFusionHandle) (inputs : List TensorIr)
    (outputs : List TensorIr) (reshaped : List (TensorIr × TensorIr × Bool))
    (swapped : List (TensorIr × TensorIr × Bool × Nat × Nat))
    (dls : List Nat) (overrides : LineSizeOverrides) (mx : Nat)
    (axis : Option Nat) : Option (Nat → Option Vect) :=
  match processInputsClaimed dls overrides mx axis swapped (handles_inputs.zip inputs) m with
  | none => none
  | some m1 =>
    match processReshaped dls overrides mx axis reshaped m1 with
    | none => none
    | some m2 => processOutputs dls overrides mx axis outputs m2

/-- Modelled from the spec (claim C7 as amended): one orchestration step for
a bound input — route through the swapped resolver and merge into the
original identity's slot when the input's identity is the original side of a
swap relation, otherwise resolve as a plain input and insert under its own
identity. -/
def stepInput (dls : List Nat) (ov : LineSizeOverrides) (mx : Nat)
    (axis : Option Nat) (swapped : List (TensorIr × TensorIr × Bool × Nat × Nat))
    (m : Nat → Option Vect) (p : CubeFusionHandle × TensorIr) :
    Option (Nat → Option Vect) :=
  match swapped.find? (fun q => q.2.1.id == p.2.id) with
  | some (s, o, mr, d1, d2) =>
    (vectorization_swapped p.1 s o mr (d1, d2) mx axis dls (ov.tensor p.2.id)).map
      (fun val => multi_reads_vectorization_update m o.id val)
  | none =>
    (vectorization_input p.1 p.2 axis dls (ov.tensor p.2.id)).map
      (fun val => insertV m p.2.id val)

/-- Modelled from the spec (claim C7 as amended): one orchestration step for
a reshape-aliased tensor — resolve and merge into the original identity. -/
def stepReshape (dls : List Nat) (ov : LineSizeOverrides) (mx : Nat)
    (axis : Option Nat) (m : Nat → Option Vect)
    (p : TensorIr × TensorIr × Bool) : Option (Nat → Option Vect) :=
  (vectorization_reshape p.1 p.2.1 p.2.2 axis dls mx (ov.tensor p.2.1.id)).map
    (fun val => multi_reads_vectorization_update m p.2.1.id val)

/-- Modelled from the spec (claim C7 as amended): one orchestration step for
an output tensor — resolve and insert under its own identity. -/
def stepOutput (dls : List Nat) (ov : LineSizeOverrides) (mx : Nat)
    (axis : Option Nat) (m : Nat → Option Vect) (tensor : TensorIr) :
    Option (Nat → Option Vect) :=
  (vectorization_output tensor axis dls mx (ov.tensor tensor.id)).map
    (fun val => insertV m tensor.id val)

/-- Modelled from the spec (claim C7 as amended): the orchestrator as three
monadic folds in the fixed order inputs, reshaped, outputs. -/
def vectorization_default_spec (m : Nat → Option Vect)
    (handles_inputs : List CubeFusionHandle) (inputs : List TensorIr)
    (outputs : List TensorIr) (reshaped : List (TensorIr × TensorIr × Bool))
    (swapped : List (TensorIr × TensorIr × Bool × Nat × Nat))
    (dls : List Nat) (overrides : LineSizeOverrides) (mx : Nat)
    (axis : Option Nat) : Option (Nat → Option Vect) :=
  (handles_inputs.zip inputs).foldlM (stepInput dls overrides mx axis swapped) m >>= fun m1 =>
  reshaped.foldlM (stepReshape dls overrides mx axis) m1 >>= fun m2 =>
  outputs.foldlM (stepOutput dls overrides mx axis) m2

/-! ## Scan characterizations -/

theorem scanInput_eq (e : Nat) (cands : List Nat) (h : ∀ s ∈ cands, s ≠ 0) :
    scanInput e cands = some (.Aligned ((cands.find? fun s => e % s == 0).getD 1)) := by
  induction cands with
  | nil => rfl
  | cons s rest ih =>
    have hs : s ≠ 0 := h s (by simp)
    by_cases hd : e % s = 0
    · rw [List.find?_cons_of_pos _ (by simpa using hd)]
      simp [scanInput, hs, hd]
    · rw [List.find?_cons_of_neg _ (by simpa using hd)]
      simp [scanInput, hs, hd, ih (fun t ht => h t (by simp [ht]))]

theorem scanOutput_eq (shape : List Nat) (ax mx e : Nat)
    (he : shape[ax]? = some e) (cands : List Nat)
    (h : ∀ s ∈ cands, s ≠ 0) :
    scanOutput shape ax mx cands =
      some (.Aligned ((cands.find? fun s =>
        decide (e % s = 0) && decide (s ≤ mx)).getD 1)) := by
  induction cands with
  | nil => rfl
  | cons s rest ih =>
    have hs : s ≠ 0 := h s (by simp)
    by_cases hd : e % s = 0 ∧ s ≤ mx
    · rw [List.find?_cons_of_pos _ (by simp [hd.1, hd.2])]
      simp [scanOutput, he, hs, hd]
    · rw [List.find?_cons_of_neg _ (by
        rcases Decidable.not_and_iff_or_not.mp hd with hd2 | hd2 <;> simp [hd2])]
      simp [scanOutput, he, hs, hd, ih (fun t ht => h t (by simp [ht]))]

theorem scanReshape_eq (multi : Bool) (rAx oAx mx : Nat) (cands : List Nat)
    (h : ∀ s ∈ cands, s ≠ 0) :
    scanReshape multi rAx oAx mx cands =
      some (.Aligned ((cands.find? fun s =>
        if multi then decide (rAx % s = 0) && decide (oAx % s = 0) && decide (s ≤ mx)
        else decide (rAx % s = 0) && decide (s ≤ mx)).getD 1)) := by
  induction cands with
  | nil => rfl
  | cons s rest ih =>
    have hs : s ≠ 0 := h s (by simp)
    have ih2 := ih (fun t ht => h t (by simp [ht]))
    cases multi with
    | true =>
      by_cases hd : rAx % s = 0 ∧ oAx % s = 0 ∧ s ≤ mx
      · rw [List.find?_cons_of_pos _ (by simp [hd.1, hd.2.1, hd.2.2])]
        simp [scanReshape, hs, hd]
      · rw [List.find?_cons_of_neg _ (by
          rcases Decidable.not_and_iff_or_not.mp hd with hd2 | hd2
          · simp [hd2]
          · rcases Decidable.not_and_iff_or_not.mp hd2 with hd3 | hd3 <;> simp [hd3])]
        simp [scanReshape, hs, hd, ih2]
    | false =>
      by_cases hd : rAx % s = 0 ∧ s ≤ mx
      · rw [List.find?_cons_of_pos _ (by simp [hd.1, hd.2])]
        simp [scanReshape, hs, hd]
      · rw [List.find?_cons_of_neg _ (by
          rcases Decidable.not_and_iff_or_not.mp hd with hd2 | hd2 <;> simp [hd2])]
        simp [scanReshape, hs, hd, ih2]

theorem scanSwapped_eq (multi : Bool) (sAx oAx mx : Nat) (cands : List Nat)
    (h : ∀ s ∈ cands, s ≠ 0) :
    scanSwapped multi sAx oAx mx cands =
      some (.Aligned ((cands.find? fun s =>
        if multi then decide (sAx % s = 0) && decide (s ≤ mx)
        else decide (sAx % s = 0) && decide (oAx % s = 0) && decide (s ≤ mx)).getD 1)) := by
  induction cands with
  | nil => rfl
  | cons s rest ih =>
    have hs : s ≠ 0 := h s (by simp)
    have ih2 := ih (fun t ht => h t (by simp [ht]))
    cases multi with
    | true =>
      by_cases hd : sAx % s = 0 ∧ s ≤ mx
      · rw [List.find?_cons_of_pos _ (by simp [hd.1, hd.2])]
        simp [scanSwapped, hs, hd]
      · rw [List.find?_cons_of_neg _ (by
          rcases Decidable.not_and_iff_or_not.mp hd with hd2 | hd2 <;> simp [hd2])]
        simp [scanSwapped, hs, hd, ih2]
    | false =>
      by_cases hd : sAx % s = 0 ∧ oAx % s = 0 ∧ s ≤ mx
      · rw [List.find?_cons_of_pos _ (by simp [hd.1, hd.2.1, hd.2.2])]
        simp [scanSwapped, hs, hd]
      · rw [List.find?_cons_of_neg _ (by
          rcases Decidable.not_and_iff_or_not.mp hd with hd2 | hd2
          · simp [hd2]
          · rcases Decidable.not_and_iff_or_not.mp hd2 with hd3 | hd3 <;> simp [hd3])]
        simp [scanSwapped, hs, hd, ih2]

/-! ## Claim C1: conflict merger behaviour -/

/-- Claim C1: the conflict merger, applied for a tensor identity with an
existing recorded decision and a new proposal, behaves exactly as: an
existing `Broadcasted` is kept unchanged; an existing `Aligned(old)` with a
`Broadcasted` proposal becomes `Aligned(1)`; two `Aligned` decisions with
differing widths become `Aligned(1)` and with equal widths keep that width;
with no prior decision the proposal is recorded as-is.  Stated pointwise:
updating the mapping at identity `k` with proposal `v` records exactly
`mergeClaim (m k) v` at `k` and leaves every other identity unchanged. -/
theorem claim1_conflict_merger (m : Nat → Option Vect) (k : Nat) (v : Vect)
    (k2 : Nat) :
    multi_reads_vectorization_update m k v k2 =
      if k2 = k then some (mergeClaim (m k) v) else m k2 := by
  unfold multi_reads_vectorization_update mergeClaim
  cases hm : m k with
  | none => cases v <;> simp [insertV]
  | some ori =>
    cases ori with
    | Broadcasted =>
      cases v <;>
        · by_cases hk : k2 = k <;> simp [hk, hm]
    | Aligned ori =>
      cases v with
      | Broadcasted => simp [insertV]
      | Aligned nw =>
        by_cases hne : nw = ori <;> simp [hne, insertV]

/-! ## Claim C2: merge absorption -/

/-- Claim C2 counterexample: an identity that first receives `Broadcasted`
and then `Aligned(4)` ends with `Broadcasted`, not `Aligned(1)` as the claim
states — the merger keeps an existing `Broadcasted` unchanged. -/
theorem claim2_counterexample :
    multi_reads_vectorization_update
        (multi_reads_vectorization_update (fun _ => none) 5 .Broadcasted) 5
        (.Aligned 4) 5 = some Vect.Broadcasted ∧
      some Vect.Broadcasted ≠ some (Vect.Aligned 1) := ⟨rfl, by decide⟩

/-- Claim C2 as amended: an identity with no prior decision that first
receives the proposal `Broadcasted` and then any proposal `Aligned(w)` ends
with `Broadcasted` (broadcast dominates), and one that receives only
`Broadcasted` remains `Broadcasted`. -/
theorem claim2_amended (m : Nat → Option Vect) (k w : Nat) (h : m k = none) :
    multi_reads_vectorization_update
        (multi_reads_vectorization_update m k .Broadcasted) k (.Aligned w) k =
      some Vect.Broadcasted ∧
    multi_reads_vectorization_update m k .Broadcasted k = some Vect.Broadcasted := by
  have h1 : multi_reads_vectorization_update m k .Broadcasted k = some Vect.Broadcasted := by
    unfold multi_reads_vectorization_update
    rw [h]
    simp [insertV]
  refine ⟨?_, h1⟩
  generalize hm1 : multi_reads_vectorization_update m k .Broadcasted = m1 at h1 ⊢
  unfold multi_reads_vectorization_update
  rw [h1]
  exact h1

/-- Claim C2 witness: the amended claim at identity 9 and width 4, starting
from the empty mapping. -/
theorem claim2_witness :
    multi_reads_vectorization_update
        (multi_reads_vectorization_update (fun _ => none) 9 .Broadcasted) 9
        (.Aligned 4) 9 = some Vect.Broadcasted ∧
    multi_reads_vectorization_update (fun _ => none) 9 .Broadcasted 9 = some Vect.Broadcasted :=
  claim2_amended (fun _ => none) 9 4 rfl

/-! ## Claim C10: the merger never increases the line size -/

/-- Claim C10 counterexample: with existing decision `Broadcasted` and
proposal `Aligned(0)` (line size 0), the merged decision is `Broadcasted`
with line size 1, which is strictly greater than the proposal's line size. -/
theorem claim10_counterexample :
    multi_reads_vectorization_update (insertV (fun _ => none) 0 .Broadcasted) 0 (.Aligned 0) 0 = some Vect.Broadcasted ∧
    ¬ (Vect.line_size Vect.Broadcasted ≤ Vect.line_size (Vect.Aligned 0)) := ⟨rfl, by decide⟩

/-- Claim C10 as amended: for every existing recorded decision and every new
proposal whose line sizes are both at least 1 (which excludes only the
degenerate `Aligned(0)`), the merged decision's line size is at most the
existing decision's and at most the proposal's. -/
theorem claim10_amended (m : Nat → Option Vect) (k : Nat) (ori v : Vect)
    (h : m k = some ori) (h1 : 1 ≤ ori.line_size) (h2 : 1 ≤ v.line_size) :
    (multi_reads_vectorization_update m k v k).isSome = true ∧
    ((multi_reads_vectorization_update m k v k).getD (.Aligned 1)).line_size ≤ ori.line_size ∧
    ((multi_reads_vectorization_update m k v k).getD (.Aligned 1)).line_size ≤ v.line_size := by
  unfold multi_reads_vectorization_update
  rw [h]
  cases ori with
  | Broadcasted =>
    cases v <;> simp_all [h, Vect.line_size]
  | Aligned o =>
    cases v with
    | Broadcasted => simp_all [insertV, Vect.line_size]
    | Aligned nw =>
      by_cases hne : nw = o <;> simp_all [insertV, Vect.line_size, hne]

/-- Claim C10 witness: the amended claim at existing decision `Aligned(4)`
and proposal `Aligned(2)`. -/
theorem claim10_witness :
    (multi_reads_vectorization_update (insertV (fun _ => none) 7 (.Aligned 4)) 7 (.Aligned 2) 7).isSome = true ∧
    ((multi_reads_vectorization_update (insertV (fun _ => none) 7 (.Aligned 4)) 7 (.Aligned 2) 7).getD (.Aligned 1)).line_size ≤ (Vect.Aligned 4).line_size ∧
    ((multi_reads_vectorization_update (insertV (fun _ => none) 7 (.Aligned 4)) 7 (.Aligned 2) 7).getD (.Aligned 1)).line_size ≤ (Vect.Aligned 2).line_size :=
  claim10_amended _ 7 (.Aligned 4) (.Aligned 2) rfl (by decide) (by decide)

/-! ## Claims C3 and C4: the plain-input resolver -/

theorem scanInput_mod (e : Nat) (cands : List Nat) (w : Nat)
    (h : scanInput e cands = some (.Aligned w)) : e % w = 0 := by
  induction cands with
  | nil =>
    simp [scanInput] at h
    simp [← h]
    omega
  | cons s rest ih =>
    unfold scanInput at h
    by_cases hs : s = 0
    · simp [hs] at h
    · by_cases hd : e % s = 0
      · simp [hs, hd] at h
        simp [← h, hd]
      · simp [hs, hd] at h
        exact ih h

/-- Claim C3: the plain-input resolver returns `Broadcasted` when the shape
extent at the chosen axis equals 1; otherwise `Aligned(1)` when the stride at
that axis is not 1; otherwise `Aligned(w)` for the first width `w` of the
candidate list (override list if present, else the element type's default
list) dividing the axis extent, and `Aligned(1)` if no candidate matches;
and in particular shape `[8,16]`, strides `[16,1]`, axis 1, candidates
`[4,2,1]`, no override resolves to `Aligned(4)`. -/
theorem claim3_input_resolver :
    (∀ (strides shape : List Nat) (i ax e st : Nat) (dls : List Nat)
        (ov : Option (List Nat)),
      shape[ax]? = some e → strides[ax]? = some st →
      (∀ s ∈ candsOf ov dls, s ≠ 0) →
      ((e = 1 → vectorization_input ⟨strides⟩ ⟨i, shape⟩ (some ax) dls ov = some .Broadcasted) ∧
       (e ≠ 1 → st ≠ 1 → vectorization_input ⟨strides⟩ ⟨i, shape⟩ (some ax) dls ov = some (.Aligned 1)) ∧
       (e ≠ 1 → st = 1 → vectorization_input ⟨strides⟩ ⟨i, shape⟩ (some ax) dls ov =
          some (.Aligned (((candsOf ov dls).find? fun s => e % s == 0).getD 1))))) ∧
    vectorization_input ⟨[16,1]⟩ ⟨0,[8,16]⟩ (some 1) [4,2,1] none = some (.Aligned 4) := by
  refine ⟨?_, by decide⟩
  intro strides shape i ax e st dls ov he hst hcand
  refine ⟨fun h1 => ?_, fun h1 h2 => ?_, fun h1 h2 => ?_⟩
  · simp [vectorization_input, defaultAxis, he, hst, h1]
  · simp [vectorization_input, defaultAxis, he, hst, h1, h2]
  · cases ov with
    | none =>
      simp only [candsOf, Option.getD] at hcand ⊢
      simp [vectorization_input, defaultAxis, he, hst, h1, h2, scanInput_eq e dls hcand]
      cases List.find? (fun s => e % s == 0) dls <;> simp
    | some vals =>
      simp only [candsOf, Option.getD] at hcand ⊢
      simp [vectorization_input, defaultAxis, he, hst, h1, h2, scanInput_eq e vals hcand]
      cases List.find? (fun s => e % s == 0) vals <;> simp

/-- Claim C3 witness: the branch characterization applied at the claim's own
scenario, shape `[8,16]`, strides `[16,1]`, axis 1, candidates `[4,2,1]`. -/
theorem claim3_witness :
    vectorization_input ⟨[16,1]⟩ ⟨0,[8,16]⟩ (some 1) [4,2,1] none = some (Vect.Aligned 4) ∧
    ([8,16] : List Nat)[1]? = some 16 :=
  ⟨(claim3_input_resolver.1 [16,1] [8,16] 0 1 16 1 [4,2,1] none rfl rfl
      (by decide)).2.2 (by decide) rfl, rfl⟩

/-- Claim C4 counterexample: on shape `[8,16]` with strides `[1,8]` and
axis 1 the resolver returns the fallback `Aligned(1)` although the stride at
the axis is 8, not 1 — so the claim is false for the `Aligned(1)` fallback
cases it explicitly includes. -/
theorem claim4_counterexample :
    vectorization_input ⟨[1,8]⟩ ⟨0,[8,16]⟩ (some 1) [4,2,1] none = some (Vect.Aligned 1) ∧
    ([1,8] : List Nat)[1]? = some 8 ∧ (8 : Nat) ≠ 1 := ⟨rfl, rfl, by decide⟩

/-- Claim C4 as amended: for every decision `Aligned(w)` returned by the
plain-input resolver, the shape extent at the chosen axis is divisible by
`w`, and whenever `w ≠ 1` (that is, outside the `Aligned(1)` fallbacks) the
stride at that axis is 1. -/
theorem claim4_amended (strides shape : List Nat) (i : Nat) (axis : Option Nat)
    (dls : List Nat) (ov : Option (List Nat)) (w ax e : Nat)
    (h : vectorization_input ⟨strides⟩ ⟨i, shape⟩ axis dls ov = some (.Aligned w))
    (hax : defaultAxis strides.length axis = some ax)
    (he : shape[ax]? = some e) :
    e % w = 0 ∧ (w ≠ 1 → strides[ax]? = some 1) := by
  unfold vectorization_input at h
  rw [hax] at h
  simp only [he] at h
  by_cases h1 : e = 1
  · simp [h1] at h
  · simp only [h1, if_false] at h
    cases hst : strides[ax]? with
    | none => exact absurd h (by simp [hst])
    | some st =>
      simp only [hst] at h
      by_cases h2 : st = 1
      · simp only [h2, ne_eq, not_true_eq_false, if_false] at h
        have hmod : e % w = 0 := by
          cases ov with
          | none => exact scanInput_mod e dls w h
          | some vals => exact scanInput_mod e vals w h
        exact ⟨hmod, fun _ => by simp [hst, h2]⟩
      · simp only [h2, ne_eq, not_false_eq_true, if_true, Option.some.injEq] at h
        have hw : w = 1 := by
          cases h
          rfl
        subst hw
        exact ⟨Nat.mod_one e, fun hcontra => absurd rfl hcontra⟩

/-- Claim C4 witness: the amended claim at the `Aligned(4)` decision of the
C3 scenario. -/
theorem claim4_witness :
    (16 : Nat) % 4 = 0 ∧ ((4 : Nat) ≠ 1 → ([16,1] : List Nat)[1]? = some 1) :=
  claim4_amended [16,1] [8,16] 0 (some 1) [4,2,1] none 4 1 16 rfl rfl rfl

/-! ## Claim C5: the reshape resolver -/

theorem scanReshape_match (multi : Bool) (rAx oAx mx : Nat) (cands : List Nat)
    (h : ∀ s ∈ cands, s ≠ 0) :
    scanReshape multi rAx oAx mx cands =
      some (match cands.find? (fun s =>
          if multi then decide (rAx % s = 0) && decide (oAx % s = 0) && decide (s ≤ mx)
          else decide (rAx % s = 0) && decide (s ≤ mx)) with
        | some w => Vect.Aligned w
        | none => Vect.Aligned 1) := by
  rw [scanReshape_eq multi rAx oAx mx cands h]
  cases hf : cands.find? (fun s =>
      if multi then decide (rAx % s = 0) && decide (oAx % s = 0) && decide (s ≤ mx)
      else decide (rAx % s = 0) && decide (s ≤ mx)) <;> simp [hf]

/-- Claim C5 as amended: the reshape resolver first returns `Broadcasted`
when not multi-read and the reshaped axis extent is 1; only past that rule
does it return `Aligned(1)` for a non-trailing axis or for mismatched
last-axis extents, and otherwise it scans the candidates as the claim
describes (non-multi-read: reshaped extent divisible by `w` and `w ≤ max`;
multi-read: additionally the original's last-axis extent divisible by `w`),
falling back to `Aligned(1)`.  Stated as equality with the rule-by-rule
model `vectorization_reshape_spec`. -/
theorem claim5_amended (reshaped original : TensorIr) (multi : Bool) (ax : Nat)
    (dls : List Nat) (mx : Nat) (ov : Option (List Nat)) (rAx : Nat)
    (h1 : reshaped.shape[ax]? = some rAx)
    (h2 : original.shape ≠ [])
    (h3 : ∀ s ∈ candsOf ov dls, s ≠ 0) :
    vectorization_reshape reshaped original multi (some ax) dls mx ov =
      some (vectorization_reshape_spec reshaped original multi ax (candsOf ov dls) mx) := by
  have hlen : original.shape.length - 1 < original.shape.length := by
    have := List.length_pos.mpr h2
    omega
  have hoAx : original.shape[original.shape.length - 1]? =
      some (original.shape.getD (original.shape.length - 1) 0) := by
    rw [List.getD_eq_getElem?_getD, List.getElem?_eq_getElem hlen]
    rfl
  have hrAx : reshaped.shape.getD ax 0 = rAx := by
    rw [List.getD_eq_getElem?_getD, h1]
    rfl
  unfold vectorization_reshape vectorization_reshape_spec defaultAxis
  simp only [h1, hrAx]
  by_cases hb : multi = false ∧ rAx = 1
  · simp [hb.1, hb.2]
  · simp only [hb, if_false]
    by_cases hax : ax ≠ reshaped.shape.length - 1
    · simp [hax]
    · simp only [hax, if_false, not_not]
      set oAx := original.shape.getD (original.shape.length - 1) 0 with hoA
      simp only [hoAx]
      by_cases hne : oAx ≠ rAx
      · simp [hne]
      · push_neg at hne
        cases ov with
        | none =>
          simp only [candsOf, Option.getD] at h3 ⊢
          rw [scanReshape_match multi rAx oAx mx dls h3]
          simp [hne]
        | some vals =>
          simp only [candsOf, Option.getD] at h3 ⊢
          rw [scanReshape_match multi rAx oAx mx vals h3]
          simp [hne]

/-- Claim C5 counterexample: with `multi_reads = false`, reshaped shape
`[1,4]` and axis 0 — an axis that is not the last axis — the resolver
returns `Broadcasted`, not the `Aligned(1)` the claim requires for every
non-trailing axis: the size-1 broadcast rule runs first. -/
theorem claim5_counterexample :
    vectorization_reshape ⟨0, [1,4]⟩ ⟨1, [4]⟩ false (some 0) [4,2,1] 4 none =
      some Vect.Broadcasted ∧
    (0 : Nat) ≠ ([1,4] : List Nat).length - 1 ∧
    Vect.Broadcasted ≠ Vect.Aligned 1 := ⟨rfl, by decide, by decide⟩

/-- Claim C5 witness: the amended claim at reshaped shape `[16]`, original
shape `[2,16]`, `multi_reads = false`, candidates `[4,1]`, where the
resolver picks `Aligned(4)`. -/
theorem claim5_witness :
    vectorization_reshape ⟨2, [16]⟩ ⟨3, [2,16]⟩ false (some 0) [4,1] 4 none =
      some (vectorization_reshape_spec ⟨2, [16]⟩ ⟨3, [2,16]⟩ false 0 (candsOf none [4,1]) 4) ∧
    vectorization_reshape ⟨2, [16]⟩ ⟨3, [2,16]⟩ false (some 0) [4,1] 4 none =
      some (Vect.Aligned 4) :=
  ⟨claim5_amended ⟨2, [16]⟩ ⟨3, [2,16]⟩ false 0 [4,1] 4 none 16 rfl (by decide) (by decide),
   by decide⟩

/-! ## Claim C6: the dimension-swapped resolver -/

theorem scanSwapped_match (multi : Bool) (sAx oAx mx : Nat) (cands : List Nat)
    (h : ∀ s ∈ cands, s ≠ 0) :
    scanSwapped multi sAx oAx mx cands =
      some (match cands.find? (fun s =>
          if multi then decide (sAx % s = 0) && decide (s ≤ mx)
          else decide (sAx % s = 0) && decide (oAx % s = 0) && decide (s ≤ mx)) with
        | some w => Vect.Aligned w
        | none => Vect.Aligned 1) := by
  rw [scanSwapped_eq multi sAx oAx mx cands h]
  cases hf : cands.find? (fun s =>
      if multi then decide (sAx % s = 0) && decide (s ≤ mx)
      else decide (sAx % s = 0) && decide (oAx % s = 0) && decide (s ≤ mx)) <;> simp [hf]

/-- Claim C6 as amended: the dimension-swapped resolver computes `dim_index`
as the other side of the swapped pair when the vectorization axis equals one
side and as the axis itself otherwise; applies the claim's contiguity rules
(multi-read: both the axis's and `dim_index`'s strides must be 1;
non-multi-read: only `dim_index`'s); then — the part the claim omits — when
not multi-read and the swapped axis extent is 1 it returns `Broadcasted`;
and only otherwise scans candidates (multi-read: swapped extent divisible by
`w`, `w ≤ max`; non-multi-read: additionally the original axis extent
divisible by `w`), falling back to `Aligned(1)`.  Stated as equality with
the rule-by-rule model `vectorization_swapped_spec`. -/
theorem claim6_amended (strides : List Nat) (swapped original : TensorIr)
    (multi : Bool) (dims : Nat × Nat) (mx ax : Nat) (dls : List Nat)
    (ov : Option (List Nat)) (sAx oAx : Nat)
    (h1 : swapped.shape[ax]? = some sAx)
    (h2 : original.shape[ax]? = some oAx)
    (h3 : ax < strides.length)
    (h4 : dims.1 < strides.length)
    (h5 : dims.2 < strides.length)
    (h6 : ∀ s ∈ candsOf ov dls, s ≠ 0) :
    vectorization_swapped ⟨strides⟩ swapped original multi dims mx (some ax) dls ov =
      some (vectorization_swapped_spec strides swapped original multi dims mx ax (candsOf ov dls)) := by
  have hsAx : swapped.shape.getD ax 0 = sAx := by
    rw [List.getD_eq_getElem?_getD, h1]; rfl
  have hoAx : original.shape.getD ax 0 = oAx := by
    rw [List.getD_eq_getElem?_getD, h2]; rfl
  set dim_index := (if dims.1 = ax then dims.2 else if dims.2 = ax then dims.1 else ax) with hdim
  have hdi : dim_index < strides.length := by
    rw [hdim]
    split
    · exact h5
    · split
      · exact h4
      · exact h3
  obtain ⟨sa, hsa⟩ : ∃ v, strides[ax]? = some v :=
    ⟨strides[ax], List.getElem?_eq_getElem h3⟩
  obtain ⟨sd, hsd⟩ : ∃ v, strides[dim_index]? = some v :=
    ⟨strides[dim_index], List.getElem?_eq_getElem hdi⟩
  have hsa2 : strides.getD ax 0 = sa := by
    rw [List.getD_eq_getElem?_getD, hsa]; rfl
  have hsd2 : strides.getD dim_index 0 = sd := by
    rw [List.getD_eq_getElem?_getD, hsd]; rfl
  unfold vectorization_swapped vectorization_swapped_spec defaultAxis swappedContiguity
  simp only [h1, h2, hsAx, hoAx, hsa, hsa2, hsd, hsd2, ← hdim]
  cases multi with
  | true =>
    simp only [if_true]
    by_cases hc1 : sa = 1
    · simp only [hc1, ne_eq, not_true_eq_false, if_false]
      by_cases hc2 : sd = 1
      · simp only [hc2, ne_eq, not_true_eq_false, if_false]
        simp only [decide_True, false_or, false_and, or_false, and_false, if_false]
        cases ov with
        | none =>
          simp only [candsOf, Option.getD] at h6 ⊢
          rw [scanSwapped_match true sAx oAx mx dls h6]
          simp
        | some vals =>
          simp only [candsOf, Option.getD] at h6 ⊢
          rw [scanSwapped_match true sAx oAx mx vals h6]
          simp
      · simp [hc2]
    · simp [hc1]
  | false =>
    simp only [Bool.false_eq_true, if_false]
    by_cases hc2 : sd = 1
    · simp only [hc2, ne_eq, not_true_eq_false, if_false]
      simp only [false_and, and_false, false_or, or_false, if_false]
      by_cases hbc : sAx = 1
      · simp [hbc]
      · simp only [hbc, and_false, if_false]
        cases ov with
        | none =>
          simp only [candsOf, Option.getD] at h6 ⊢
          rw [scanSwapped_match false sAx oAx mx dls h6]
          simp [hbc]
        | some vals =>
          simp only [candsOf, Option.getD] at h6 ⊢
          rw [scanSwapped_match false sAx oAx mx vals h6]
          simp [hbc]
    · simp [hc2]

/-- Claim C6 counterexample: not multi-read, swapped shape `[2,1]`, original
shape `[1,2]`, strides `[1,2]`, swap pair `(0,1)`, axis 1, candidates `[2]`:
the contiguity check passes (`dim_index = 0`, stride 1), and the code
returns `Broadcasted`, while the claim's description — scan the candidates
past the contiguity check and fall back to `Aligned(1)` — yields
`Aligned(1)`. -/
theorem claim6_counterexample :
    vectorization_swapped ⟨[1,2]⟩ ⟨0, [2,1]⟩ ⟨1, [1,2]⟩ false (0, 1) 4 (some 1) [2] none =
      some Vect.Broadcasted ∧
    vectorization_swapped_claimed [1,2] ⟨0, [2,1]⟩ ⟨1, [1,2]⟩ false (0, 1) 4 1 [2] =
      Vect.Aligned 1 ∧
    Vect.Broadcasted ≠ Vect.Aligned 1 := ⟨rfl, by decide, by decide⟩

/-- Claim C6 witness: the amended claim at a multi-read transpose of a
`[2,4]` tensor with unit strides and candidates `[4,2]`, where the resolver
picks `Aligned(4)`. -/
theorem claim6_witness :
    vectorization_swapped ⟨[1,1]⟩ ⟨4, [2,4]⟩ ⟨5, [2,4]⟩ true (0, 1) 4 (some 1) [4,2] none =
      some (vectorization_swapped_spec [1,1] ⟨4, [2,4]⟩ ⟨5, [2,4]⟩ true (0, 1) 4 1 (candsOf none [4,2])) ∧
    vectorization_swapped ⟨[1,1]⟩ ⟨4, [2,4]⟩ ⟨5, [2,4]⟩ true (0, 1) 4 (some 1) [4,2] none =
      some (Vect.Aligned 4) :=
  ⟨claim6_amended [1,1] ⟨4, [2,4]⟩ ⟨5, [2,4]⟩ true (0, 1) 4 1 [4,2] none 4 4
      rfl rfl (by decide) (by decide) (by decide) (by decide),
   by decide⟩

/-! ## Claim C7: the orchestrator -/

theorem processInputs_eq_foldlM (dls : List Nat) (ov : LineSizeOverrides)
    (mx : Nat) (axis : Option Nat)
    (sw : List (TensorIr × TensorIr × Bool × Nat × Nat)) :
    ∀ (pairs : List (CubeFusionHandle × TensorIr)) (m : Nat → Option Vect),
      processInputs dls ov mx axis sw pairs m =
        pairs.foldlM (stepInput dls ov mx axis sw) m := by
  intro pairs
  induction pairs with
  | nil => intro m; rfl
  | cons p rest ih =>
    intro m
    obtain ⟨handle, tensor⟩ := p
    cases hf : sw.find? (fun q => q.2.1.id == tensor.id) with
    | none =>
      cases hv : vectorization_input handle tensor axis dls (ov.tensor tensor.id) with
      | none => simp [processInputs, stepInput, List.foldlM, hf, hv]
      | some val => simp [processInputs, stepInput, List.foldlM, hf, hv, ih]
    | some q =>
      obtain ⟨s, o, mr, d1, d2⟩ := q
      cases hv : vectorization_swapped handle s o mr (d1, d2) mx axis dls (ov.tensor tensor.id) with
      | none => simp [processInputs, stepInput, List.foldlM, hf, hv]
      | some val => simp [processInputs, stepInput, List.foldlM, hf, hv, ih]

theorem processReshaped_eq_foldlM (dls : List Nat) (ov : LineSizeOverrides)
    (mx : Nat) (axis : Option Nat) :
    ∀ (resh : List (TensorIr × TensorIr × Bool)) (m : Nat → Option Vect),
      processReshaped dls ov mx axis resh m =
        resh.foldlM (stepReshape dls ov mx axis) m := by
  intro resh
  induction resh with
  | nil => intro m; rfl
  | cons p rest ih =>
    intro m
    obtain ⟨reshaped, original, multi_reads⟩ := p
    cases hv : vectorization_reshape reshaped original multi_reads axis dls mx (ov.tensor original.id) with
    | none => simp [processReshaped, stepReshape, List.foldlM, hv]
    | some val => simp [processReshaped, stepReshape, List.foldlM, hv, ih]

theorem processOutputs_eq_foldlM (dls : List Nat) (ov : LineSizeOverrides)
    (mx : Nat) (axis : Option Nat) :
    ∀ (outs : List TensorIr) (m : Nat → Option Vect),
      processOutputs dls ov mx axis outs m =
        outs.foldlM (stepOutput dls ov mx axis) m := by
  intro outs
  induction outs with
  | nil => intro m; rfl
  | cons tensor rest ih =>
    intro m
    cases hv : vectorization_output tensor axis dls mx (ov.tensor tensor.id) with
    | none => simp [processOutputs, stepOutput, List.foldlM, hv]
    | some val => simp [processOutputs, stepOutput, List.foldlM, hv, ih]

/-- Claim C7 as amended: the orchestrator processes groups in the fixed
order inputs, then reshape-aliased tensors, then outputs; each bound input
whose identity appears as the *original* side of a swapped-pair relation
(not the transposed side, as the claim states) is routed through the
dimension-swapped resolver and merged into the original identity's slot,
every other input is resolved as a plain input and inserted under its own
identity; reshape-aliased tensors are merged into the original identity's
slot and outputs are inserted under their own identity.  Stated as equality
with the step-by-step model `vectorization_default_spec`. -/
theorem claim7_amended (m : Nat → Option Vect)
    (handles_inputs : List CubeFusionHandle) (inputs : List TensorIr)
    (outputs : List TensorIr) (reshaped : List (TensorIr × TensorIr × Bool))
    (swapped : List (TensorIr × TensorIr × Bool × Nat × Nat))
    (dls : List Nat) (overrides : LineSizeOverrides) (mx : Nat)
    (axis : Option Nat) :
    vectorization_default m handles_inputs inputs outputs reshaped swapped dls overrides mx axis =
      vectorization_default_spec m handles_inputs inputs outputs reshaped swapped dls overrides mx axis := by
  unfold vectorization_default vectorization_default_spec
  simp only [processInputs_eq_foldlM, processReshaped_eq_foldlM, processOutputs_eq_foldlM]
  cases hp : List.foldlM (stepInput dls overrides mx axis swapped) m (handles_inputs.zip inputs) with
  | none => simp
  | some m1 =>
    simp only []
    cases hr : List.foldlM (stepReshape dls overrides mx axis) m1 reshaped with
    | none => simp [hr]
    | some m2 => simp [hr]

/-- Claim C7 counterexample: one bound input with identity 10 and one swap
relation whose transposed side has identity 10 but whose original side has
identity 20.  The code looks for the input's identity on the *original*
side, finds nothing, resolves the input as a plain input and records
`Aligned(2)` under identity 10 with no entry for 20; the claim's routing
(match on the transposed side, merge into the original identity) would
instead leave 10 empty and record `Aligned(2)` under 20. -/
theorem claim7_counterexample :
    (vectorization_default (fun _ => none) [⟨[1]⟩] [⟨10, [4]⟩] [] []
        [(⟨10, [4]⟩, ⟨20, [4]⟩, false, 0, 0)] [2] ⟨none, none⟩ 4 (some 0)).map
      (fun f => (f 10, f 20)) = some (some (Vect.Aligned 2), none) ∧
    (vectorization_default_claimed (fun _ => none) [⟨[1]⟩] [⟨10, [4]⟩] [] []
        [(⟨10, [4]⟩, ⟨20, [4]⟩, false, 0, 0)] [2] ⟨none, none⟩ 4 (some 0)).map
      (fun f => (f 10, f 20)) = some (none, some (Vect.Aligned 2)) := ⟨rfl, rfl⟩

/-! ## Claim C8: override remapping across a context -/

theorem mappingState_none_of_mem (ctx : Nat → Option Nat)
    (st : List (Nat × List Nat)) (p : Nat × List Nat) (hp : p ∈ st)
    (hc : ctx p.1 = none) : mappingState ctx st = none := by
  induction st with
  | nil => exact absurd hp (by simp)
  | cons q rest ih =>
    obtain ⟨k, v⟩ := q
    rcases List.mem_cons.mp hp with hq | hq
    · subst hq
      simp [mappingState, hc]
    · cases hk : ctx k with
      | none => simp [mappingState, hk]
      | some g => simp [mappingState, hk, ih hq]

theorem mappingState_some (ctx : Nat → Option Nat) (st : List (Nat × List Nat))
    (h : ∀ p ∈ st, (ctx p.1).isSome = true) :
    mappingState ctx st = some (st.map fun p => ((ctx p.1).getD 0, p.2)) := by
  induction st with
  | nil => rfl
  | cons q rest ih =>
    obtain ⟨k, v⟩ := q
    have hk : (ctx k).isSome = true := h (k, v) (by simp)
    obtain ⟨g, hg⟩ := Option.isSome_iff_exists.mp hk
    have := ih (fun p hp => h p (by simp [hp]))
    simp [mappingState, hg, this]

/-- Claim C8: override-table remapping fails loudly — whenever some tensor
identity with a per-identity entry has no mapping target in the context's
identity translation, the remap aborts (the `unwrap` panic, modelled as
`none`) instead of dropping the entry; when every entry has a mapping
target, remap returns a new table with translated identities and the default
list unchanged (and a table with no per-identity state is returned with its
default list unchanged). -/
theorem claim8_override_remap :
    (∀ (df : Option (List Nat)) (st : List (Nat × List Nat))
        (ctx : Nat → Option Nat) (p : Nat × List Nat),
      p ∈ st → ctx p.1 = none →
      LineSizeOverrides.mapping ⟨some st, df⟩ ctx = none) ∧
    (∀ (df : Option (List Nat)) (st : List (Nat × List Nat))
        (ctx : Nat → Option Nat),
      (∀ p ∈ st, (ctx p.1).isSome = true) →
      LineSizeOverrides.mapping ⟨some st, df⟩ ctx =
        some ⟨some (st.map fun p => ((ctx p.1).getD 0, p.2)), df⟩) ∧
    (∀ (df : Option (List Nat)) (ctx : Nat → Option Nat),
      LineSizeOverrides.mapping ⟨none, df⟩ ctx = some ⟨none, df⟩) := by
  refine ⟨fun df st ctx p hp hc => ?_, fun df st ctx h => ?_, fun df ctx => rfl⟩
  · simp [LineSizeOverrides.mapping, mappingState_none_of_mem ctx st p hp hc]
  · simp [LineSizeOverrides.mapping, mappingState_some ctx st h]

/-- Claim C8 witness: the three parts at a two-entry table under a total
translation, a one-entry table under an empty translation, and a state-free
table. -/
theorem claim8_witness :
    LineSizeOverrides.mapping ⟨some [(1, [4]), (2, [2])], some [8]⟩ (fun n => some (n + 100)) =
      some ⟨some ([(1, [4]), (2, [2])].map fun p =>
        (((fun n => some (n + 100)) p.1).getD 0, p.2)), some [8]⟩ ∧
    LineSizeOverrides.mapping ⟨some [(1, [4])], some [8]⟩ (fun _ => none) = none ∧
    LineSizeOverrides.mapping ⟨none, some [8]⟩ (fun _ => none) = some ⟨none, some [8]⟩ :=
  ⟨claim8_override_remap.2.1 (some [8]) [(1, [4]), (2, [2])] (fun n => some (n + 100))
      (fun p _ => rfl),
   claim8_override_remap.1 (some [8]) [(1, [4])] (fun _ => none) (1, [4]) (by simp) rfl,
   claim8_override_remap.2.2 (some [8]) (fun _ => none)⟩

/-! ## Claim C9: totality of the resolvers -/

/-- Claim C9 counterexample: the plain-input resolver given axis 5 for a
rank-1 tensor aborts (out-of-bounds index panic, modelled as `none`) instead
of returning a decision, so the claim's "for every input" quantification
fails. -/
theorem claim9_counterexample :
    vectorization_input ⟨[1]⟩ ⟨0, [4]⟩ (some 5) [2] none = none := rfl

/-- Claim C9 as amended: every resolver (plain input, output, reshape,
dimension-swapped) terminates in a valid Width Decision — falling back to
`Aligned(1)` when its constraints cannot be satisfied — for every input
whose chosen axis (explicit or defaulted) is within the bounds of the
relevant shape and stride arrays and whose scanned candidate widths are
nonzero; outside those bounds the code panics rather than returning a
decision. -/
theorem claim9_amended :
    (∀ (strides shape : List Nat) (i : Nat) (axis : Option Nat) (ax : Nat)
        (dls : List Nat) (ov : Option (List Nat)),
      defaultAxis strides.length axis = some ax → ax < shape.length →
      ax < strides.length → (∀ s ∈ candsOf ov dls, s ≠ 0) →
      (vectorization_input ⟨strides⟩ ⟨i, shape⟩ axis dls ov).isSome = true) ∧
    (∀ (shape : List Nat) (i : Nat) (axis : Option Nat) (ax : Nat)
        (dls : List Nat) (mx : Nat) (ov : Option (List Nat)),
      defaultAxis shape.length axis = some ax → ax < shape.length →
      (∀ s ∈ candsOf ov dls, s ≠ 0) →
      (vectorization_output ⟨i, shape⟩ axis dls mx ov).isSome = true) ∧
    (∀ (reshaped original : TensorIr) (multi : Bool) (axis : Option Nat)
        (ax : Nat) (dls : List Nat) (mx : Nat) (ov : Option (List Nat)),
      defaultAxis reshaped.shape.length axis = some ax →
      ax < reshaped.shape.length → original.shape ≠ [] →
      (∀ s ∈ candsOf ov dls, s ≠ 0) →
      (vectorization_reshape reshaped original multi axis dls mx ov).isSome = true) ∧
    (∀ (strides : List Nat) (swapped original : TensorIr) (multi : Bool)
        (dims : Nat × Nat) (mx : Nat) (axis : Option Nat) (ax : Nat)
        (dls : List Nat) (ov : Option (List Nat)),
      defaultAxis swapped.shape.length axis = some ax →
      ax < swapped.shape.length → ax < original.shape.length →
      ax < strides.length → dims.1 < strides.length → dims.2 < strides.length →
      (∀ s ∈ candsOf ov dls, s ≠ 0) →
      (vectorization_swapped ⟨strides⟩ swapped original multi dims mx axis dls ov).isSome = true) := by
  refine ⟨?_, ?_, ?_, ?_⟩
  · intro strides shape i axis ax dls ov hax hsh hstl hc
    obtain ⟨e, he⟩ : ∃ v, shape[ax]? = some v :=
      ⟨shape[ax], List.getElem?_eq_getElem hsh⟩
    obtain ⟨st, hst⟩ : ∃ v, strides[ax]? = some v :=
      ⟨strides[ax], List.getElem?_eq_getElem hstl⟩
    unfold vectorization_input
    rw [hax]
    simp only [he]
    by_cases h1 : e = 1
    · simp [h1]
    · simp only [h1, if_false]
      simp only [hst]
      by_cases h2 : st = 1
      · simp only [h2, ne_eq, not_true_eq_false, if_false]
        cases ov with
        | none =>
          simp only [candsOf, Option.getD] at hc
          show (scanInput e dls).isSome = true
          rw [scanInput_eq e dls hc]
          rfl
        | some vals =>
          simp only [candsOf, Option.getD] at hc
          show (scanInput e vals).isSome = true
          rw [scanInput_eq e vals hc]
          rfl
      · simp [h2]
  · intro shape i axis ax dls mx ov hax hsh hc
    obtain ⟨e, he⟩ : ∃ v, shape[ax]? = some v :=
      ⟨shape[ax], List.getElem?_eq_getElem hsh⟩
    unfold vectorization_output
    rw [hax]
    cases ov with
    | none =>
      simp only [candsOf, Option.getD] at hc
      show (scanOutput shape ax mx dls).isSome = true
      rw [scanOutput_eq shape ax mx e he dls hc]
      rfl
    | some vals =>
      simp only [candsOf, Option.getD] at hc
      show (scanOutput shape ax mx vals).isSome = true
      rw [scanOutput_eq shape ax mx e he vals hc]
      rfl
  · intro reshaped original multi axis ax dls mx ov hax h1len h2 hc
    obtain ⟨rAx, h1⟩ : ∃ v, reshaped.shape[ax]? = some v :=
      ⟨reshaped.shape[ax], List.getElem?_eq_getElem h1len⟩
    have hlen : original.shape.length - 1 < original.shape.length := by
      have := List.length_pos.mpr h2
      omega
    obtain ⟨oAx, hoAx⟩ : ∃ v, original.shape[original.shape.length - 1]? = some v :=
      ⟨original.shape[original.shape.length - 1], List.getElem?_eq_getElem hlen⟩
    unfold vectorization_reshape
    rw [hax]
    simp only [h1]
    by_cases hb : multi = false ∧ rAx = 1
    · simp [hb.1, hb.2]
    · simp only [hb, if_false]
      by_cases haxl : ax ≠ reshaped.shape.length - 1
      · simp [haxl]
      · simp only [haxl, if_false]
        simp only [hoAx]
        by_cases hne : oAx ≠ rAx
        · simp [hne]
        · simp only [hne, if_false]
          cases ov with
          | none =>
            simp only [candsOf, Option.getD] at hc
            show (scanReshape multi rAx oAx mx dls).isSome = true
            rw [scanReshape_eq multi rAx oAx mx dls hc]
            rfl
          | some vals =>
            simp only [candsOf, Option.getD] at hc
            show (scanReshape multi rAx oAx mx vals).isSome = true
            rw [scanReshape_eq multi rAx oAx mx vals hc]
            rfl
  · intro strides swapped original multi dims mx axis ax dls ov hax hsw hor hstl h4 h5 hc
    obtain ⟨sAx, h1⟩ : ∃ v, swapped.shape[ax]? = some v :=
      ⟨swapped.shape[ax], List.getElem?_eq_getElem hsw⟩
    obtain ⟨oAx, h2⟩ : ∃ v, original.shape[ax]? = some v :=
      ⟨original.shape[ax], List.getElem?_eq_getElem hor⟩
    set dim_index := (if dims.1 = ax then dims.2 else if dims.2 = ax then dims.1 else ax) with hdim
    have hdi : dim_index < strides.length := by
      rw [hdim]
      split
      · exact h5
      · split
        · exact h4
        · exact hstl
    obtain ⟨sa, hsa⟩ : ∃ v, strides[ax]? = some v :=
      ⟨strides[ax], List.getElem?_eq_getElem hstl⟩
    obtain ⟨sd, hsd⟩ : ∃ v, strides[dim_index]? = some v :=
      ⟨strides[dim_index], List.getElem?_eq_getElem hdi⟩
    unfold vectorization_swapped swappedContiguity
    rw [hax]
    simp only [h1, h2, ← hdim]
    cases multi with
    | true =>
      simp only [if_true]
      simp only [hsa]
      by_cases hc1 : sa = 1
      · simp only [hc1, ne_eq, not_true_eq_false, if_false]
        simp only [hsd]
        by_cases hc2 : sd = 1
        · simp only [hc2, ne_eq, not_true_eq_false, if_false]
          simp only [decide_True, if_false]
          cases ov with
          | none =>
            simp only [candsOf, Option.getD] at hc
            show (scanSwapped true sAx oAx mx dls).isSome = true
            rw [scanSwapped_eq true sAx oAx mx dls hc]
            rfl
          | some vals =>
            simp only [candsOf, Option.getD] at hc
            show (scanSwapped true sAx oAx mx vals).isSome = true
            rw [scanSwapped_eq true sAx oAx mx vals hc]
            rfl
        · simp [hc2]
      · simp [hc1]
    | false =>
      simp only [Bool.false_eq_true, if_false]
      simp only [hsd]
      by_cases hc2 : sd = 1
      · simp only [hc2, ne_eq, not_true_eq_false, if_false]
        by_cases hbc : sAx = 1
        · simp [hbc]
        · simp only [hbc, and_false, if_false]
          cases ov with
          | none =>
            simp only [candsOf, Option.getD] at hc
            show (scanSwapped false sAx oAx mx dls).isSome = true
            rw [scanSwapped_eq false sAx oAx mx dls hc]
            rfl
          | some vals =>
            simp only [candsOf, Option.getD] at hc
            show (scanSwapped false sAx oAx mx vals).isSome = true
            rw [scanSwapped_eq false sAx oAx mx vals hc]
            rfl
      · simp [hc2]

/-- Claim C9 witness: all four totality statements at concrete in-bounds
inputs, including the output scenario `[8,15]`, axis 1, max 4, candidates
`[4,2,1]` that falls back to `Aligned(1)`. -/
theorem claim9_witness :
    (vectorization_input ⟨[16,1]⟩ ⟨0, [8,16]⟩ (some 1) [4,2,1] none).isSome = true ∧
    (vectorization_output ⟨1, [8,15]⟩ (some 1) [4,2,1] 4 none).isSome = true ∧
    (vectorization_reshape ⟨2, [16]⟩ ⟨3, [2,16]⟩ true (some 0) [4,1] 4 none).isSome = true ∧
    (vectorization_swapped ⟨[1,1]⟩ ⟨4, [2,4]⟩ ⟨5, [2,4]⟩ true (0, 1) 4 (some 1) [4,2] none).isSome = true :=
  ⟨claim9_amended.1 [16,1] [8,16] 0 (some 1) 1 [4,2,1] none rfl (by decide) (by decide) (by decide),
   claim9_amended.2.1 [8,15] 1 (some 1) 1 [4,2,1] 4 none rfl (by decide) (by decide),
   claim9_amended.2.2.1 ⟨2, [16]⟩ ⟨3, [2,16]⟩ true (some 0) 0 [4,1] 4 none rfl (by decide) (by decide) (by decide),
   claim9_amended.2.2.2 [1,1] ⟨4, [2,4]⟩ ⟨5, [2,4]⟩ true (0, 1) 4 (some 1) 1 [4,2] none rfl (by decide)
     (by decide) (by decide) (by decide) (by decide) (by decide)⟩
